import Mathlib

/-!
Shallow embedding of the MoonLight-Energy-Solutions data pipeline
(src/scripts/{data_load,qa,transform,stats,scoring}.py) and proofs of the
specification claims about it.

Modelling conventions used throughout:
* pandas numeric cells are exact rationals (`ℚ`); a missing value / NaN is
  `Option.none`, so a pandas `Series.mean()` (which skips NaN and yields NaN
  on an empty/all-NaN series) becomes an `Option ℚ`.
* timestamps are integers (minutes since an epoch); a failed
  `pd.to_datetime(..., errors='coerce')` parse (NaT) is `none`.
* `DataFrame.sort_values` (default `kind='quicksort'`) is modelled by an
  executable comparison sort with NaT placed last (`na_position='last'`).
  pandas documents the default kind as not stable, so the only properties
  asserted of a sort below are the ones every compliant sort has: it is a
  permutation of its input ordered by the key.
-/

namespace MoonLight

/-- Mean of a list of rationals; `none` models pandas' NaN result for the
mean of an empty series (`Series.mean()` on zero usable values). -/
def seriesMean (xs : List ℚ) : Option ℚ :=
  if xs.length = 0 then none else some (xs.sum / xs.length)

theorem seriesMean_nil : seriesMean [] = none := rfl

theorem seriesMean_of_ne_nil (xs : List ℚ) (h : xs ≠ []) :
    seriesMean xs = some (xs.sum / xs.length) := by
  unfold seriesMean
  rw [if_neg]
  simpa using List.length_pos_iff_ne_nil.mpr h |>.ne'

/-! ### Scorer (src/scripts/scoring.py) -/

namespace Scoring

/-- One row of the daily-aggregate table consumed by `country_score`
(columns GHI, DNI, DHI, Tamb of `df_daily`). -/
structure DailyRow where
  GHI : ℚ
  DNI : ℚ
  DHI : ℚ
  Tamb : ℚ
deriving DecidableEq, Repr

/-- The weight dictionary taken by `country_score`. -/
structure Weights where
  GHI : ℚ
  DNI : ℚ
  DHI : ℚ
  Tamb : ℚ
deriving DecidableEq, Repr

/-- The default weights of `country_score`
(`{'GHI':0.4, 'DNI':0.35, 'DHI':0.15, 'Tamb':0.10}`). -/
def defaultWeights : Weights :=
  { GHI := 0.4, DNI := 0.35, DHI := 0.15, Tamb := 0.10 }

/-- The dictionary `{'agg': {...}, 'score': ...}` returned by
`country_score`; every entry is NaN (`none`) on an empty table. -/
structure ScoreResult where
  avg_GHI : Option ℚ
  avg_DNI : Option ℚ
  avg_DHI : Option ℚ
  avg_Tamb : Option ℚ
  score : Option ℚ
deriving DecidableEq, Repr

/-- Shallow embedding of `country_score` (src/scripts/scoring.py, lines
5-23): the four column means of `df_daily`, the temperature normalisation
`temp_norm = (avg_Tamb - 0)/40.0` and the score
`w_GHI*avg_GHI + w_DNI*avg_DNI - w_DHI*avg_DHI - w_Tamb*temp_norm*1000`.
In the float code a NaN mean propagates into the score, never raising;
here that propagation is the `match` falling through to `score := none`. -/
def country_score (df : List DailyRow) (w : Weights := defaultWeights) :
    ScoreResult :=
  match seriesMean (df.map DailyRow.GHI), seriesMean (df.map DailyRow.DNI),
        seriesMean (df.map DailyRow.DHI), seriesMean (df.map DailyRow.Tamb) with
  | some g, some d, some h, some t =>
      { avg_GHI := some g, avg_DNI := some d, avg_DHI := some h,
        avg_Tamb := some t,
        score := some (w.GHI * g + w.DNI * d - w.DHI * h -
                       w.Tamb * ((t - 0) / 40) * 1000) }
  | g, d, h, t =>
      { avg_GHI := g, avg_DNI := d, avg_DHI := h, avg_Tamb := t,
        score := none }

end Scoring

/-! ### Loader (src/scripts/data_load.py) -/

namespace DataLoad

/-- A raw CSV record as `load_csv` sees it after
`pd.to_datetime(df["Timestamp"], format="%Y-%m-%d %H:%M", errors='coerce')`:
`ts` is the parse result in minutes (`none` models NaT, an unparsable
value); `payload` stands for the remaining columns of the record. -/
structure RawRow where
  ts : Option ℤ
  payload : ℚ
deriving DecidableEq, Repr

/-- A record of the loader's output, carrying the position `index` assigned
by `reset_index(drop=True)`. -/
structure LoadedRow where
  index : ℕ
  ts : Option ℤ
  payload : ℚ
deriving DecidableEq, Repr

/-- Sort key used by `sort_values("Timestamp")`: NaT sorts after every real
timestamp (pandas' default `na_position='last'`). -/
def tsKey (r : RawRow) : WithTop ℤ :=
  match r.ts with
  | some t => (t : WithTop ℤ)
  | none => ⊤

/-- The comparison `sort_values("Timestamp")` orders records by. -/
def tsLe (a b : RawRow) : Prop := tsKey a ≤ tsKey b

instance : DecidableRel tsLe := fun a b => by
  unfold tsLe; infer_instance

instance : IsTotal RawRow tsLe := ⟨fun a b => le_total (tsKey a) (tsKey b)⟩

instance : IsTrans RawRow tsLe := ⟨fun _ _ _ h h' => le_trans h h'⟩

/-- Shallow embedding of the timestamp-parsing branch of `load_csv`
(src/scripts/data_load.py, lines 10-15): sort by the parsed timestamp, NaT
last, then re-index consecutively from zero. The source's
`sort_values("Timestamp")` uses pandas' default `kind='quicksort'`, which
pandas documents as not stable (only `mergesort`/`stable` are), so the
order of records sharing a timestamp is unspecified; this model instantiates
the sort with one compliant algorithm, and only sort-algorithm-independent
properties (key-sortedness of the output, the permutation relation, the
re-indexing) may be read off it — no tie-order property is asserted. -/
def load_csv (rows : List RawRow) : List LoadedRow :=
  (List.insertionSort tsLe rows).enum.map
    (fun p => { index := p.1, ts := p.2.ts, payload := p.2.payload })

end DataLoad

/-! ### Transformer: daily aggregation (src/scripts/transform.py) -/

namespace Transform

/-- The fixed measurement columns `add_daily_aggregates` averages
(`{'GHI','DNI','DHI','ModA','ModB','Tamb','RH','WS','BP'}`). -/
inductive Col
  | GHI | DNI | DHI | ModA | ModB | Tamb | RH | WS | BP
deriving DecidableEq, Repr, Fintype

/-- A reading whose timestamp parsed: `date` is `Timestamp.dt.date` as a
day number, `val` gives the value of each aggregated measurement column. -/
structure Reading where
  date : ℤ
  val : Col → ℚ

instance : DecidableEq Reading := fun a b =>
  decidable_of_iff (a.date = b.date ∧ a.val = b.val)
    (by cases a; cases b; simp)

/-- One output row of the daily aggregation (`Date` plus the column means
of the group). -/
structure AggRow where
  Date : ℤ
  val : Col → ℚ

instance : DecidableEq AggRow := fun a b =>
  decidable_of_iff (a.Date = b.Date ∧ a.val = b.val)
    (by cases a; cases b; simp)

/-- The group keys of `df.groupby('date')`: the distinct dates present in
the frame, in ascending order (pandas sorts group keys). -/
def groupDates (df : List Reading) : List ℤ :=
  (List.insertionSort (· ≤ ·) (df.map Reading.date)).dedup

/-- Shallow embedding of `add_daily_aggregates` (src/scripts/transform.py,
lines 12-18): one row per distinct calendar date, each column holding the
group's arithmetic mean. Groups are nonempty by construction, so the mean
is a plain quotient. -/
def add_daily_aggregates (df : List Reading) : List AggRow :=
  (groupDates df).map fun d =>
    { Date := d,
      val := fun c =>
        ((df.filter (fun r => r.date == d)).map (fun r => r.val c)).sum /
          ((df.filter (fun r => r.date == d)).length : ℚ) }

theorem groupDates_sorted (df : List Reading) :
    List.Sorted (· < ·) (groupDates df) := by
  have hs : List.Sorted (· ≤ ·)
      (List.insertionSort (· ≤ ·) (df.map Reading.date)) :=
    List.sorted_insertionSort _ _
  exact List.Sorted.lt_of_le
    (List.Pairwise.sublist (List.dedup_sublist _) hs) (List.nodup_dedup _)

theorem mem_groupDates (df : List Reading) (d : ℤ) :
    d ∈ groupDates df ↔ d ∈ df.map Reading.date := by
  rw [groupDates, List.mem_dedup,
    (List.perm_insertionSort (· ≤ ·) (df.map Reading.date)).mem_iff]

/-- A `Nodup` list whose members are exactly `d` is the singleton `[d]`. -/
theorem nodup_eq_singleton {α : Type _} (l : List α) (d : α)
    (hn : l.Nodup) (hm : ∀ x, x ∈ l ↔ x = d) : l = [d] := by
  cases l with
  | nil => exact absurd ((hm d).mpr rfl) (by simp)
  | cons x xs =>
    have hx : x = d := (hm x).mp (by simp)
    subst hx
    have hxs : xs = [] := by
      cases xs with
      | nil => rfl
      | cons y ys =>
        have hy : y = x := (hm y).mp (by simp)
        subst hy
        exact absurd (List.nodup_cons.mp hn).1 (by simp)
    rw [hxs]

end Transform

/-! ### Outlier Detector (src/scripts/stats.py, `compute_zscore` /
`flag_outliers_z`) -/

namespace Stats

/-- `Series.mean()` of a column with possible NaN cells: NaN entries are
skipped (`skipna=True`); `none` when no finite entry remains. -/
def nanMean (xs : List (Option ℚ)) : Option ℚ :=
  seriesMean (xs.filterMap id)

/-- Population variance (square of `Series.std(ddof=0)`) over the finite
entries of the column; `none` when there is no finite entry (pandas' NaN
standard deviation of an empty series). -/
def popVar (xs : List (Option ℚ)) : Option ℚ :=
  match nanMean xs with
  | none => none
  | some m =>
      some ((((xs.filterMap id).map (fun x => (x - m) ^ 2)).sum) /
        ((xs.filterMap id).length : ℚ))

/-- Whether the z-score `(x - mean)/std` of one cell
(`compute_zscore`, src/scripts/stats.py lines 6-7) is a number: a NaN
cell, a NaN mean, or a zero population standard deviation all give NaN
(with zero variance every finite cell equals the mean, so the quotient is
the undefined `0/0`). -/
def zDefined (xs : List (Option ℚ)) (x : Option ℚ) : Bool :=
  match x, popVar xs with
  | some _, some v => decide (v ≠ 0)
  | _, _ => false

/-- The outlier flag `compute_zscore(s).abs() > threshold` of one cell
(src/scripts/stats.py lines 11-13), written without the irrational square
root: for variance `v > 0`, `|x - m| / √v > t` iff `t < 0` or
`(x - m)^2 > t^2 * v`; a NaN z-score compares as not-greater, so it is
never flagged. -/
def zFlag (xs : List (Option ℚ)) (t : ℚ) (x : Option ℚ) : Bool :=
  match x, nanMean xs, popVar xs with
  | some q, some m, some v =>
      if v = 0 then false else decide (t < 0) || decide ((q - m) ^ 2 > t ^ 2 * v)
  | _, _, _ => false

/-- The boolean column `df[f'{col}_outlier']` produced by
`flag_outliers_z` for the selected column `s = df[col]`. -/
def flag_outliers_z (s : List (Option ℚ)) (t : ℚ) : List Bool :=
  s.map (zFlag s t)

/-- Number of rows flagged as outliers at the given threshold. -/
def outlierCount (s : List (Option ℚ)) (t : ℚ) : ℕ :=
  (flag_outliers_z s t).count true

theorem popVar_nonneg (s : List (Option ℚ)) (v : ℚ) (h : popVar s = some v) :
    0 ≤ v := by
  unfold popVar at h
  cases hm : nanMean s with
  | none => rw [hm] at h; exact absurd h (by simp)
  | some m =>
    rw [hm] at h
    have hv := Option.some.inj h
    rw [← hv]
    apply div_nonneg
    · exact List.sum_nonneg (by
        intro x hx
        rcases List.mem_map.mp hx with ⟨q, _, hq⟩
        rw [← hq]; positivity)
    · positivity

theorem outlierCount_eq_countP (s : List (Option ℚ)) (t : ℚ) :
    outlierCount s t = s.countP (zFlag s t) := by
  unfold outlierCount flag_outliers_z
  rw [List.count_eq_countP, List.countP_map]
  apply List.countP_congr
  intro x _
  simp [Function.comp]

theorem zFlag_none (s : List (Option ℚ)) (t : ℚ) : zFlag s t none = false := rfl

theorem zDefined_none (s : List (Option ℚ)) : zDefined s none = false := rfl

theorem zFlag_of_popVar_none (s : List (Option ℚ)) (t : ℚ) (x : Option ℚ)
    (hv : popVar s = none) : zFlag s t x = false := by
  unfold zFlag
  cases x with
  | none => rfl
  | some q =>
    cases hm : nanMean s with
    | none => rfl
    | some m => rw [hv]

theorem zFlag_some (s : List (Option ℚ)) (t : ℚ) (q m v : ℚ)
    (hm : nanMean s = some m) (hv : popVar s = some v) :
    zFlag s t (some q) =
      if v = 0 then false
      else decide (t < 0) || decide ((q - m) ^ 2 > t ^ 2 * v) := by
  unfold zFlag
  rw [hm, hv]

theorem zDefined_some (s : List (Option ℚ)) (q v : ℚ)
    (hv : popVar s = some v) : zDefined s (some q) = decide (v ≠ 0) := by
  unfold zDefined
  rw [hv]

theorem popVar_some_nanMean (s : List (Option ℚ)) (v : ℚ)
    (hv : popVar s = some v) : ∃ m, nanMean s = some m := by
  unfold popVar at hv
  cases hm : nanMean s with
  | none => rw [hm] at hv; exact absurd hv (by simp)
  | some m => exact ⟨m, rfl⟩

/-- If the column's finite entries are all equal (or absent), its
population variance is zero (or NaN). -/
theorem popVar_of_const (s : List (Option ℚ)) (c : ℚ)
    (hc : ∀ x ∈ s.filterMap id, x = c) :
    popVar s = none ∨ popVar s = some 0 := by
  cases hnil : s.filterMap id with
  | nil =>
    left
    unfold popVar nanMean
    rw [hnil]
    rfl
  | cons y ys =>
    right
    have hne : s.filterMap id ≠ [] := by rw [hnil]; simp
    have hmean : nanMean s = some c := by
      unfold nanMean
      rw [seriesMean_of_ne_nil _ hne,
        List.sum_eq_card_nsmul (s.filterMap id) c hc]
      have hlen : ((s.filterMap id).length : ℚ) ≠ 0 := by
        simpa [List.length_eq_zero] using hne
      rw [nsmul_eq_mul, mul_comm, mul_div_assoc, div_self hlen, mul_one]
    have hz : ((s.filterMap id).map (fun x => (x - c) ^ 2)).sum = 0 :=
      List.sum_eq_zero (by
        intro x hx
        rcases List.mem_map.mp hx with ⟨q, hq, hqx⟩
        rw [← hqx, hc q hq]
        ring)
    unfold popVar
    rw [hmean]
    show some _ = some 0
    rw [hz]
    simp

end Stats

end MoonLight

/-- C5: outlier flagging is antitone in the threshold: for thresholds
`t1 < t2`, every row flagged at `t2` is flagged at `t1`, and the outlier
count at `t1` is at least the outlier count at `t2`. -/
theorem flag_outliers_z_threshold_antitone (s : List (Option ℚ)) (t1 t2 : ℚ)
    (h : t1 < t2) :
    (∀ x ∈ s, MoonLight.Stats.zFlag s t2 x = true →
      MoonLight.Stats.zFlag s t1 x = true)
    ∧ MoonLight.Stats.outlierCount s t2 ≤ MoonLight.Stats.outlierCount s t1 := by
  have hpt : ∀ x ∈ s, MoonLight.Stats.zFlag s t2 x = true →
      MoonLight.Stats.zFlag s t1 x = true := by
    intro x _ hx
    cases x with
    | none => rw [MoonLight.Stats.zFlag_none] at hx; exact absurd hx (by simp)
    | some q =>
      cases hv : MoonLight.Stats.popVar s with
      | none =>
        rw [MoonLight.Stats.zFlag_of_popVar_none s t2 _ hv] at hx
        exact absurd hx (by simp)
      | some v =>
        rcases MoonLight.Stats.popVar_some_nanMean s v hv with ⟨m, hm⟩
        rw [MoonLight.Stats.zFlag_some s t2 q m v hm hv] at hx
        rw [MoonLight.Stats.zFlag_some s t1 q m v hm hv]
        by_cases hv0 : v = 0
        · rw [if_pos hv0] at hx; exact absurd hx (by simp)
        · rw [if_neg hv0] at hx ⊢
          by_cases ht1 : t1 < 0
          · simp [ht1]
          · push_neg at ht1
            rcases (Bool.or_eq_true _ _).mp hx with h2 | h2
            · have : t2 < 0 := of_decide_eq_true h2
              exact absurd this (not_lt.mpr (le_trans ht1 (le_of_lt h)))
            · have hgt : (q - m) ^ 2 > t2 ^ 2 * v := of_decide_eq_true h2
              have hvpos : 0 < v :=
                lt_of_le_of_ne (MoonLight.Stats.popVar_nonneg s v hv)
                  (Ne.symm hv0)
              have hsq : t1 ^ 2 < t2 ^ 2 :=
                pow_lt_pow_left₀ h ht1 (by norm_num)
              have hmul : t1 ^ 2 * v < t2 ^ 2 * v :=
                mul_lt_mul_of_pos_right hsq hvpos
              apply (Bool.or_eq_true _ _).mpr
              right
              exact decide_eq_true (lt_trans hmul hgt)
  refine ⟨hpt, ?_⟩
  rw [MoonLight.Stats.outlierCount_eq_countP, MoonLight.Stats.outlierCount_eq_countP]
  exact List.countP_mono_left hpt

/-- Witness for C5: thresholds 1 < 3 on the column [1,2,3,4,5,100]. -/
theorem flag_outliers_z_threshold_antitone_witness :
    MoonLight.Stats.outlierCount
        [some 1, some 2, some 3, some 4, some 5, some 100] 3 ≤
      MoonLight.Stats.outlierCount
        [some 1, some 2, some 3, some 4, some 5, some 100] 1 :=
  (flag_outliers_z_threshold_antitone
    [some 1, some 2, some 3, some 4, some 5, some 100] 1 3 (by norm_num)).2

/-- C6: on a column with fewer than two distinct finite values (in
particular any constant column) every z-score is NaN, no row is flagged at
any threshold, and the outlier count is 0 at any threshold. -/
theorem flag_outliers_z_degenerate_column (s : List (Option ℚ))
    (h : ((s.filterMap id).dedup.length < 2) ∨
      MoonLight.Stats.popVar s = some 0) :
    ∀ t : ℚ,
      (∀ x ∈ s, MoonLight.Stats.zDefined s x = false)
      ∧ MoonLight.Stats.flag_outliers_z s t = List.replicate s.length false
      ∧ MoonLight.Stats.outlierCount s t = 0 := by
  intro t
  have hvar : MoonLight.Stats.popVar s = none ∨
      MoonLight.Stats.popVar s = some 0 := by
    rcases h with h | h
    · cases hnil : (s.filterMap id).dedup with
      | nil =>
        left
        have : s.filterMap id = [] := (List.dedup_eq_nil _).mp hnil
        unfold MoonLight.Stats.popVar MoonLight.Stats.nanMean
        rw [this]
        rfl
      | cons y ys =>
        have hys : ys = [] := by
          rw [hnil] at h
          simp at h
          have hlen : ys.length = 0 := by omega
          exact List.length_eq_zero.mp hlen
        apply MoonLight.Stats.popVar_of_const s y
        intro x hx
        have hxd : x ∈ (s.filterMap id).dedup := List.mem_dedup.mpr hx
        rw [hnil, hys] at hxd
        simpa using hxd
    · right; exact h
  have hflag : ∀ x ∈ s, MoonLight.Stats.zFlag s t x = false := by
    intro x hx
    cases x with
    | none => exact MoonLight.Stats.zFlag_none s t
    | some q =>
      rcases hvar with hv | hv
      · exact MoonLight.Stats.zFlag_of_popVar_none s t _ hv
      · rcases MoonLight.Stats.popVar_some_nanMean s 0 hv with ⟨m, hm⟩
        rw [MoonLight.Stats.zFlag_some s t q m 0 hm hv]
        simp
  refine ⟨?_, ?_, ?_⟩
  · intro x hx
    cases x with
    | none => exact MoonLight.Stats.zDefined_none s
    | some q =>
      rcases hvar with hv | hv
      · unfold MoonLight.Stats.zDefined
        rw [hv]
      · rw [MoonLight.Stats.zDefined_some s q 0 hv]
        simp
  · unfold MoonLight.Stats.flag_outliers_z
    have : s.map (MoonLight.Stats.zFlag s t) = s.map (fun _ => false) := by
      apply List.map_congr_left
      exact hflag
    rw [this, List.map_const']
  · rw [MoonLight.Stats.outlierCount_eq_countP]
    rw [List.countP_eq_zero]
    intro x hx
    simp [hflag x hx]

/-- Witness for C6: the constant column [7,7,7] at threshold 3. -/
theorem flag_outliers_z_degenerate_column_witness :
    MoonLight.Stats.flag_outliers_z [some 7, some 7, some 7] 3 =
        [false, false, false]
    ∧ MoonLight.Stats.outlierCount [some 7, some 7, some 7] 3 = 0 := by
  have h := flag_outliers_z_degenerate_column [some 7, some 7, some 7]
      (Or.inl (by decide)) 3
  exact ⟨by simpa using h.2.1, h.2.2⟩

namespace MoonLight.Stats

/-- A row of the frame given to `cleaning_impact_test`: timestamp in
minutes, the 0/1 `Cleaning` indicator, and the chosen metric cell (`none`
models a NaN metric value, skipped by `.mean()`). -/
structure CleanRow where
  ts : ℤ
  cleaning : ℤ
  metric : Option ℚ
deriving DecidableEq, Repr

/-- Timestamp comparison used by `df.sort_values('Timestamp')` at the head
of `cleaning_impact_test`. -/
def rowLe (a b : CleanRow) : Prop := a.ts ≤ b.ts

instance : DecidableRel rowLe := fun a b =>
  inferInstanceAs (Decidable (a.ts ≤ b.ts))

instance : IsTotal CleanRow rowLe := ⟨fun a b => le_total a.ts b.ts⟩

instance : IsTrans CleanRow rowLe := ⟨fun _ _ _ h h' => le_trans h h'⟩

/-- The `df.sort_values('Timestamp').reset_index(drop=True)` step. -/
def sortByTs (df : List CleanRow) : List CleanRow :=
  List.insertionSort rowLe df

/-- `events = df[df['Cleaning']==1]['Timestamp'].tolist()`. -/
def events (df : List CleanRow) : List ℤ :=
  ((sortByTs df).filter (fun r => r.cleaning == 1)).map CleanRow.ts

/-- Metric mean over the pre window: the rows selected by
`(df['Timestamp'] >= t - pre_window_hours) & (df['Timestamp'] < t)`,
i.e. timestamps in `[t - 60*preH, t)` minutes; NaN when no finite metric
value falls in the window. -/
def preMean (df : List CleanRow) (preH t : ℤ) : Option ℚ :=
  nanMean (((sortByTs df).filter
    (fun r => decide (t - 60 * preH ≤ r.ts ∧ r.ts < t))).map CleanRow.metric)

/-- Metric mean over the post window
`(df['Timestamp'] > t) & (df['Timestamp'] <= t + post_window_hours)`,
i.e. timestamps in `(t, t + 60*postH]` minutes. -/
def postMean (df : List CleanRow) (postH t : ℤ) : Option ℚ :=
  nanMean (((sortByTs df).filter
    (fun r => decide (t < r.ts ∧ r.ts ≤ t + 60 * postH))).map CleanRow.metric)

/-- The `(pre, post)` values appended to `pre_vals`/`post_vals`: one pair
per cleaning event whose two window means are both finite
(`np.isfinite(pre) and np.isfinite(post)`). -/
def pairedSamples (df : List CleanRow) (preH postH : ℤ) : List (ℚ × ℚ) :=
  (events df).filterMap (fun t =>
    match preMean df preH t, postMean df postH t with
    | some a, some b => some (a, b)
    | _, _ => none)

/-- Mean of a list known to be sampled at least twice (`np.mean` on
`pre_vals`/`post_vals`, reached only with `len >= 2`). -/
def listMean (xs : List ℚ) : ℚ := xs.sum / xs.length

/-- Sample variance (`ddof=1`) of the paired differences — the quantity
whose square root scipy's `ttest_rel` divides by. -/
def sampleVar (xs : List ℚ) : ℚ :=
  ((xs.map (fun x => (x - listMean xs) ^ 2)).sum) / ((xs.length : ℚ) - 1)

/-- Result dictionary of `cleaning_impact_test` (src/scripts/stats.py,
lines 16-38). `insufficient` is the `len(pre_vals) < 2` dictionary,
carrying only the usable-pair count (plus a message). In the full result,
scipy's `ttest_rel(post_vals, pre_vals)` statistic
`t = mean(d) / sqrt(var₁(d)/n)` over the paired differences
`d = post - pre` is kept by its exact rational ingredients `dMean` and
`dVar`; the float `t` is finite iff `dVar ≠ 0` (see `tStatFinite`). -/
inductive CIResult
  | insufficient (nEvents : ℕ)
  | result (nEvents : ℕ) (dMean dVar meanPre meanPost meanDiff : ℚ)
deriving DecidableEq, Repr

/-- Shallow embedding of `cleaning_impact_test`; `mean_diff` is computed,
as in the source, as `np.mean(post_vals) - np.mean(pre_vals)`. -/
def cleaning_impact_test (df : List CleanRow) (preH postH : ℤ) : CIResult :=
  let ps := pairedSamples df preH postH
  if ps.length < 2 then .insufficient ps.length
  else
    let d := ps.map (fun p => p.2 - p.1)
    .result ps.length (listMean d) (sampleVar d)
      (listMean (ps.map Prod.fst)) (listMean (ps.map Prod.snd))
      (listMean (ps.map Prod.snd) - listMean (ps.map Prod.fst))

/-- Whether the float statistic scipy returns for this result is finite:
`t = mean(d)/sqrt(var₁(d)/n)` divides by zero exactly when the sample
variance of the paired differences vanishes (all differences equal), in
which case the float result is `±inf` (or `NaN` when `mean(d)` is also
zero), never a finite number. -/
def tStatFinite : CIResult → Bool
  | .insufficient _ => false
  | .result _ _ dVar _ _ _ => decide (dVar ≠ 0)

theorem nanMean_perm (xs ys : List (Option ℚ)) (h : xs.Perm ys) :
    nanMean xs = nanMean ys := by
  have hp : (xs.filterMap id).Perm (ys.filterMap id) := h.filterMap id
  unfold nanMean seriesMean
  rw [hp.length_eq, hp.sum_eq]

theorem filterMap_pair_eq_filter_map {α : Type _} (f g : α → Option ℚ)
    (l : List α) :
    l.filterMap (fun t =>
        match f t, g t with
        | some a, some b => some ((a, b) : ℚ × ℚ)
        | _, _ => none) =
      (l.filter (fun t => (f t).isSome && (g t).isSome)).map
        (fun t => ((f t).getD 0, (g t).getD 0)) := by
  induction l with
  | nil => rfl
  | cons x xs ih =>
    rw [List.filterMap_cons, List.filter_cons]
    cases hf : f x with
    | none => simpa [hf] using ih
    | some a =>
      cases hg : g x with
      | none => simpa [hf, hg] using ih
      | some b => simpa [hf, hg] using ih

theorem sum_sq_eq_zero_iff (xs : List ℚ) (c : ℚ) :
    ((xs.map (fun x => (x - c) ^ 2)).sum = 0) ↔ ∀ x ∈ xs, x = c := by
  induction xs with
  | nil => simp
  | cons y ys ih =>
    rw [List.map_cons, List.sum_cons,
      add_eq_zero_iff_of_nonneg (by positivity)
        (List.sum_nonneg (by
          intro x hx
          rcases List.mem_map.mp hx with ⟨q, _, hq⟩
          rw [← hq]; positivity))]
    rw [ih, pow_eq_zero_iff (by norm_num), sub_eq_zero]
    constructor
    · rintro ⟨h1, h2⟩ x hx
      rcases List.mem_cons.mp hx with h | h
      · rw [h]; exact h1
      · exact h2 x h
    · intro h
      exact ⟨h y (by simp), fun x hx => h x (List.mem_cons_of_mem _ hx)⟩

/-- With at least two samples, the sample variance vanishes exactly when
all samples are equal to their mean. -/
theorem sampleVar_eq_zero_iff (xs : List ℚ) (h2 : 2 ≤ xs.length) :
    sampleVar xs = 0 ↔ ∀ x ∈ xs, x = listMean xs := by
  unfold sampleVar
  rw [div_eq_zero_iff]
  have hden : ((xs.length : ℚ) - 1) ≠ 0 := by
    have : (2 : ℚ) ≤ (xs.length : ℚ) := by exact_mod_cast h2
    intro hc
    rw [sub_eq_zero] at hc
    rw [hc] at this
    norm_num at this
  rw [or_iff_left hden]
  exact sum_sq_eq_zero_iff xs (listMean xs)

end MoonLight.Stats

/-- C8: each cleaning event at time `T` is paired with the metric mean
over exactly the readings with timestamp in `[T - pre_window_hours, T)`
(pre) and the metric mean over exactly the readings with timestamp in
`(T, T + post_window_hours]` (post) — regardless of the input order, since
the internal sort only permutes rows — and an event contributes a usable
paired sample if and only if both window means are finite. -/
theorem cleaning_impact_window_semantics
    (df : List MoonLight.Stats.CleanRow) (preH postH : ℤ) :
    (∀ t : ℤ,
      MoonLight.Stats.preMean df preH t =
        MoonLight.Stats.nanMean ((df.filter
          (fun r => decide (t - 60 * preH ≤ r.ts ∧ r.ts < t))).map
            MoonLight.Stats.CleanRow.metric)
      ∧ MoonLight.Stats.postMean df postH t =
        MoonLight.Stats.nanMean ((df.filter
          (fun r => decide (t < r.ts ∧ r.ts ≤ t + 60 * postH))).map
            MoonLight.Stats.CleanRow.metric))
    ∧ MoonLight.Stats.pairedSamples df preH postH =
        ((MoonLight.Stats.events df).filter
            (fun t => (MoonLight.Stats.preMean df preH t).isSome &&
              (MoonLight.Stats.postMean df postH t).isSome)).map
          (fun t => ((MoonLight.Stats.preMean df preH t).getD 0,
            (MoonLight.Stats.postMean df postH t).getD 0)) := by
  constructor
  · intro t
    have hperm : (MoonLight.Stats.sortByTs df).Perm df :=
      List.perm_insertionSort _ df
    constructor
    · exact MoonLight.Stats.nanMean_perm _ _
        (((hperm.filter _).map MoonLight.Stats.CleanRow.metric))
    · exact MoonLight.Stats.nanMean_perm _ _
        (((hperm.filter _).map MoonLight.Stats.CleanRow.metric))
  · exact MoonLight.Stats.filterMap_pair_eq_filter_map _ _ _

namespace MoonLight.Stats

/-- The paired differences `d = post - pre` that scipy's
`ttest_rel(post_vals, pre_vals)` tests. -/
def pairedDiffs (df : List CleanRow) (preH postH : ℤ) : List ℚ :=
  (pairedSamples df preH postH).map (fun p => p.2 - p.1)

/-- Six readings with two cleaning events whose pre/post window means are
10 → 11 and 20 → 21: both paired differences equal 1, so the sample
variance of the differences is zero. -/
def constDiffDf : List CleanRow :=
  [⟨5940, 0, some 10⟩, ⟨6000, 1, some 0⟩, ⟨6060, 0, some 11⟩,
   ⟨17940, 0, some 20⟩, ⟨18000, 1, some 0⟩, ⟨18060, 0, some 21⟩]

/-- Six readings with two cleaning events whose pre/post window means are
10 → 11 and 20 → 22: paired differences 1 and 2. -/
def varDiffDf : List CleanRow :=
  [⟨5940, 0, some 10⟩, ⟨6000, 1, some 0⟩, ⟨6060, 0, some 11⟩,
   ⟨17940, 0, some 20⟩, ⟨18000, 1, some 0⟩, ⟨18060, 0, some 22⟩]

end MoonLight.Stats

/-- Counterexample to C7 as stated: on `constDiffDf` (two usable paired
samples, both differences equal) `cleaning_impact_test` returns the full
result, but the variance of the paired differences is 0, so scipy's
t statistic is `mean(d)/0 = +inf` — not a finite t-statistic. -/
theorem cleaning_impact_test_constant_diffs_t_not_finite :
    2 ≤ (MoonLight.Stats.pairedSamples MoonLight.Stats.constDiffDf 24 24).length
    ∧ MoonLight.Stats.cleaning_impact_test MoonLight.Stats.constDiffDf 24 24 =
        MoonLight.Stats.CIResult.result 2 1 0 15 16 1
    ∧ MoonLight.Stats.tStatFinite
        (MoonLight.Stats.cleaning_impact_test MoonLight.Stats.constDiffDf 24 24) =
      false := by
  have h0 : MoonLight.Stats.sortByTs MoonLight.Stats.constDiffDf =
      MoonLight.Stats.constDiffDf := by decide
  have h1 : MoonLight.Stats.events MoonLight.Stats.constDiffDf = [6000, 18000] := by
    decide
  have h2 : MoonLight.Stats.preMean MoonLight.Stats.constDiffDf 24 6000 = some 10 := by
    unfold MoonLight.Stats.preMean
    rw [h0]
    norm_num [MoonLight.Stats.constDiffDf, List.filter,
      MoonLight.Stats.nanMean, MoonLight.seriesMean,
      List.filterMap_cons, List.filterMap_nil]
  have h3 : MoonLight.Stats.postMean MoonLight.Stats.constDiffDf 24 6000 = some 11 := by
    unfold MoonLight.Stats.postMean
    rw [h0]
    norm_num [MoonLight.Stats.constDiffDf, List.filter,
      MoonLight.Stats.nanMean, MoonLight.seriesMean,
      List.filterMap_cons, List.filterMap_nil]
  have h4 : MoonLight.Stats.preMean MoonLight.Stats.constDiffDf 24 18000 = some 20 := by
    unfold MoonLight.Stats.preMean
    rw [h0]
    norm_num [MoonLight.Stats.constDiffDf, List.filter,
      MoonLight.Stats.nanMean, MoonLight.seriesMean,
      List.filterMap_cons, List.filterMap_nil]
  have h5 : MoonLight.Stats.postMean MoonLight.Stats.constDiffDf 24 18000 = some 21 := by
    unfold MoonLight.Stats.postMean
    rw [h0]
    norm_num [MoonLight.Stats.constDiffDf, List.filter,
      MoonLight.Stats.nanMean, MoonLight.seriesMean,
      List.filterMap_cons, List.filterMap_nil]
  have hps : MoonLight.Stats.pairedSamples MoonLight.Stats.constDiffDf 24 24 =
      [(10, 11), (20, 21)] := by
    unfold MoonLight.Stats.pairedSamples
    rw [h1]
    rw [List.filterMap_cons, List.filterMap_cons, List.filterMap_nil]
    rw [h2, h3, h4, h5]
  have hres : MoonLight.Stats.cleaning_impact_test MoonLight.Stats.constDiffDf 24 24 =
      MoonLight.Stats.CIResult.result 2 1 0 15 16 1 := by
    unfold MoonLight.Stats.cleaning_impact_test
    rw [hps]
    norm_num [MoonLight.Stats.listMean, MoonLight.Stats.sampleVar]
  refine ⟨by rw [hps]; norm_num, hres, ?_⟩
  rw [hres]
  simp [MoonLight.Stats.tStatFinite]

/-- C7 (amended): `cleaning_impact_test` returns a tagged outcome — with
fewer than 2 usable paired samples, the "insufficient data" result
carrying only the usable-pair count; with at least 2 usable pairs, the
full result carrying the pair count, the t-statistic ingredients, the
pre mean, the post mean, and `mean_diff` exactly equal to
`mean_post - mean_pre`. The t statistic (and with it the p-value) is a
finite number if and only if the paired differences are not all equal;
when they are all equal its float value degenerates to `±inf` or `NaN`. -/
theorem cleaning_impact_test_tagged_outcome
    (df : List MoonLight.Stats.CleanRow) (preH postH : ℤ) :
    ((MoonLight.Stats.pairedSamples df preH postH).length < 2 →
      MoonLight.Stats.cleaning_impact_test df preH postH =
        MoonLight.Stats.CIResult.insufficient
          (MoonLight.Stats.pairedSamples df preH postH).length)
    ∧ (2 ≤ (MoonLight.Stats.pairedSamples df preH postH).length →
      MoonLight.Stats.cleaning_impact_test df preH postH =
        MoonLight.Stats.CIResult.result
          (MoonLight.Stats.pairedSamples df preH postH).length
          (MoonLight.Stats.listMean (MoonLight.Stats.pairedDiffs df preH postH))
          (MoonLight.Stats.sampleVar (MoonLight.Stats.pairedDiffs df preH postH))
          (MoonLight.Stats.listMean
            ((MoonLight.Stats.pairedSamples df preH postH).map Prod.fst))
          (MoonLight.Stats.listMean
            ((MoonLight.Stats.pairedSamples df preH postH).map Prod.snd))
          (MoonLight.Stats.listMean
              ((MoonLight.Stats.pairedSamples df preH postH).map Prod.snd) -
            MoonLight.Stats.listMean
              ((MoonLight.Stats.pairedSamples df preH postH).map Prod.fst))
      ∧ (MoonLight.Stats.tStatFinite
            (MoonLight.Stats.cleaning_impact_test df preH postH) = true ↔
          ¬ ∀ x ∈ MoonLight.Stats.pairedDiffs df preH postH,
            x = MoonLight.Stats.listMean (MoonLight.Stats.pairedDiffs df preH postH))) := by
  constructor
  · intro h
    unfold MoonLight.Stats.cleaning_impact_test
    rw [if_pos h]
  · intro h
    have hlt : ¬ (MoonLight.Stats.pairedSamples df preH postH).length < 2 :=
      not_lt.mpr h
    have hres : MoonLight.Stats.cleaning_impact_test df preH postH =
        MoonLight.Stats.CIResult.result
          (MoonLight.Stats.pairedSamples df preH postH).length
          (MoonLight.Stats.listMean (MoonLight.Stats.pairedDiffs df preH postH))
          (MoonLight.Stats.sampleVar (MoonLight.Stats.pairedDiffs df preH postH))
          (MoonLight.Stats.listMean
            ((MoonLight.Stats.pairedSamples df preH postH).map Prod.fst))
          (MoonLight.Stats.listMean
            ((MoonLight.Stats.pairedSamples df preH postH).map Prod.snd))
          (MoonLight.Stats.listMean
              ((MoonLight.Stats.pairedSamples df preH postH).map Prod.snd) -
            MoonLight.Stats.listMean
              ((MoonLight.Stats.pairedSamples df preH postH).map Prod.fst)) := by
      unfold MoonLight.Stats.cleaning_impact_test
      rw [if_neg hlt]
      rfl
    refine ⟨hres, ?_⟩
    rw [hres]
    unfold MoonLight.Stats.tStatFinite
    rw [decide_eq_true_iff]
    have hd2 : 2 ≤ (MoonLight.Stats.pairedDiffs df preH postH).length := by
      unfold MoonLight.Stats.pairedDiffs
      rw [List.length_map]
      exact h
    exact not_congr (MoonLight.Stats.sampleVar_eq_zero_iff _ hd2)

/-- Witness for C7's amended theorem: on `varDiffDf` there are two usable
pairs with distinct differences, the full result is produced, and the t
statistic is finite. -/
theorem cleaning_impact_test_tagged_outcome_witness :
    MoonLight.Stats.cleaning_impact_test MoonLight.Stats.varDiffDf 24 24 =
        MoonLight.Stats.CIResult.result 2 (3/2) (1/2) 15 (33/2) (3/2)
    ∧ MoonLight.Stats.tStatFinite
        (MoonLight.Stats.cleaning_impact_test MoonLight.Stats.varDiffDf 24 24) =
      true := by
  have h0 : MoonLight.Stats.sortByTs MoonLight.Stats.varDiffDf =
      MoonLight.Stats.varDiffDf := by decide
  have h1 : MoonLight.Stats.events MoonLight.Stats.varDiffDf = [6000, 18000] := by
    decide
  have h2 : MoonLight.Stats.preMean MoonLight.Stats.varDiffDf 24 6000 = some 10 := by
    unfold MoonLight.Stats.preMean
    rw [h0]
    norm_num [MoonLight.Stats.varDiffDf, List.filter,
      MoonLight.Stats.nanMean, MoonLight.seriesMean,
      List.filterMap_cons, List.filterMap_nil]
  have h3 : MoonLight.Stats.postMean MoonLight.Stats.varDiffDf 24 6000 = some 11 := by
    unfold MoonLight.Stats.postMean
    rw [h0]
    norm_num [MoonLight.Stats.varDiffDf, List.filter,
      MoonLight.Stats.nanMean, MoonLight.seriesMean,
      List.filterMap_cons, List.filterMap_nil]
  have h4 : MoonLight.Stats.preMean MoonLight.Stats.varDiffDf 24 18000 = some 20 := by
    unfold MoonLight.Stats.preMean
    rw [h0]
    norm_num [MoonLight.Stats.varDiffDf, List.filter,
      MoonLight.Stats.nanMean, MoonLight.seriesMean,
      List.filterMap_cons, List.filterMap_nil]
  have h5 : MoonLight.Stats.postMean MoonLight.Stats.varDiffDf 24 18000 = some 22 := by
    unfold MoonLight.Stats.postMean
    rw [h0]
    norm_num [MoonLight.Stats.varDiffDf, List.filter,
      MoonLight.Stats.nanMean, MoonLight.seriesMean,
      List.filterMap_cons, List.filterMap_nil]
  have hps : MoonLight.Stats.pairedSamples MoonLight.Stats.varDiffDf 24 24 =
      [(10, 11), (20, 22)] := by
    unfold MoonLight.Stats.pairedSamples
    rw [h1]
    rw [List.filterMap_cons, List.filterMap_cons, List.filterMap_nil]
    rw [h2, h3, h4, h5]
  have h := (cleaning_impact_test_tagged_outcome MoonLight.Stats.varDiffDf 24 24).2
    (by rw [hps]; norm_num)
  have hd : MoonLight.Stats.pairedDiffs MoonLight.Stats.varDiffDf 24 24 = [1, 2] := by
    unfold MoonLight.Stats.pairedDiffs
    rw [hps]
    norm_num
  constructor
  · rw [h.1, hps, hd]
    norm_num [MoonLight.Stats.listMean, MoonLight.Stats.sampleVar]
  · rw [h.2]
    intro hall
    have h1m : (1 : ℚ) ∈ MoonLight.Stats.pairedDiffs MoonLight.Stats.varDiffDf 24 24 := by
      rw [hd]; simp
    have h1e := hall 1 h1m
    rw [hd] at h1e
    norm_num [MoonLight.Stats.listMean] at h1e

/-! ### Transformer: post-clean flag (src/scripts/transform.py) -/

namespace MoonLight.Transform

/-- A row of the frame passed to `add_post_clean_flag`: timestamp in
minutes, the raw `Cleaning` cell (`none` models a missing value), and a
stand-in for the remaining measurement columns. -/
structure CleanInRow where
  ts : ℤ
  cleaning : Option ℤ
  moda : ℚ
deriving DecidableEq, Repr

/-- An output row of `add_post_clean_flag`: the `Cleaning` column after
`fillna(0).astype(int)`, the untouched measurements, and the derived
`post_clean` flag (the helper columns `clean_timestamp`, `last_clean`,
`days_since_clean` are dropped before returning). -/
structure CleanOutRow where
  ts : ℤ
  cleaning : ℤ
  moda : ℚ
  post_clean : Bool
deriving DecidableEq, Repr

/-- The window test `days_since_clean.between(0, days_after)` for one row,
given the forward-filled last cleaning timestamp: a closed interval on the
fractional days `(ts - last_clean)/(3600*24)` seconds (here minutes/1440),
and `False` when `last_clean` is NaT (no prior cleaning event). -/
def postCleanSpec (daysAfter : ℚ) (lc : Option ℤ) (r : CleanInRow) : Bool :=
  match lc with
  | none => false
  | some t0 =>
      decide ((0 : ℚ) ≤ ((r.ts - t0 : ℤ) : ℚ) / 1440 ∧
        ((r.ts - t0 : ℤ) : ℚ) / 1440 ≤ daysAfter)

/-- The row-by-row pass of `add_post_clean_flag`: `last` carries the
forward-filled (`ffill`) `last_clean` timestamp; a row whose normalised
cleaning indicator is 1 updates it to its own timestamp (the
`clean_timestamp` column) before its own window test. -/
def postCleanGo (daysAfter : ℚ) : Option ℤ → List CleanInRow → List CleanOutRow
  | _, [] => []
  | last, r :: rs =>
    let c : ℤ := r.cleaning.getD 0
    let last' : Option ℤ := if c = 1 then some r.ts else last
    { ts := r.ts, cleaning := c, moda := r.moda,
      post_clean := postCleanSpec daysAfter last' r } ::
      postCleanGo daysAfter last' rs

/-- Shallow embedding of `add_post_clean_flag` (src/scripts/transform.py,
lines 20-31): work on a copy, normalise `Cleaning` with
`fillna(0).astype(int)`, forward-fill the last cleaning timestamp, and
flag rows whose days-since-clean lies in `[0, days_after]`. -/
def add_post_clean_flag (df : List CleanInRow) (daysAfter : ℚ := 1) :
    List CleanOutRow :=
  postCleanGo daysAfter none df

/-- The non-derived columns of an output row, viewed as an input row, for
comparing the returned frame with the caller's frame. -/
def CleanOutRow.stripDerived (r : CleanOutRow) : CleanInRow :=
  { ts := r.ts, cleaning := some r.cleaning, moda := r.moda }

/-- The `last_clean` value the `ffill` produces after a prefix of the
frame, seeded with `last`: the timestamp of the most recent row of the
prefix whose (normalised) cleaning indicator is 1, else the seed. -/
def lastCleanTs (pre : List CleanInRow) (last : Option ℤ) : Option ℤ :=
  match (pre.filter (fun r => decide (r.cleaning.getD 0 = 1))).getLast? with
  | some r => some r.ts
  | none => last

theorem lastCleanTs_cons (x : CleanInRow) (pre : List CleanInRow)
    (last : Option ℤ) :
    lastCleanTs (x :: pre) last =
      lastCleanTs pre (if x.cleaning.getD 0 = 1 then some x.ts else last) := by
  by_cases h : x.cleaning.getD 0 = 1
  · rw [if_pos h]
    unfold lastCleanTs
    rw [List.filter_cons_of_pos (by simp [h])]
    cases hl : pre.filter (fun r => decide (r.cleaning.getD 0 = 1)) with
    | nil => rw [List.getLast?_singleton, List.getLast?_nil]
    | cons y ys =>
      rw [List.getLast?_cons_cons]
      cases hg : (y :: ys).getLast? with
      | none =>
        rw [List.getLast?_eq_none_iff] at hg
        exact absurd hg (by simp)
      | some z => rfl
  · rw [if_neg h]
    unfold lastCleanTs
    rw [List.filter_cons_of_neg (by simp [h])]

theorem postCleanGo_ts_moda (daysAfter : ℚ) (last : Option ℤ)
    (df : List CleanInRow) :
    (postCleanGo daysAfter last df).map (fun r => (r.ts, r.moda)) =
      df.map (fun r => (r.ts, r.moda)) := by
  induction df generalizing last with
  | nil => rfl
  | cons x xs ih => simp [postCleanGo, ih]

theorem postCleanGo_cleaning (daysAfter : ℚ) (last : Option ℤ)
    (df : List CleanInRow) :
    (postCleanGo daysAfter last df).map CleanOutRow.cleaning =
      df.map (fun r => r.cleaning.getD 0) := by
  induction df generalizing last with
  | nil => rfl
  | cons x xs ih => simp [postCleanGo, ih]

theorem postCleanGo_flag (daysAfter : ℚ) (df : List CleanInRow)
    (last : Option ℤ) (i : ℕ) (r : CleanInRow) (hr : df[i]? = some r) :
    ((postCleanGo daysAfter last df)[i]?).map CleanOutRow.post_clean =
      some (postCleanSpec daysAfter (lastCleanTs (df.take (i + 1)) last) r) := by
  induction df generalizing last i with
  | nil => simp at hr
  | cons x xs ih =>
    cases i with
    | zero =>
      have hx : x = r := by simpa using hr
      subst hx
      rw [List.take_succ_cons, List.take_zero, lastCleanTs_cons]
      unfold lastCleanTs
      simp [postCleanGo]
    | succ j =>
      rw [List.getElem?_cons_succ] at hr
      rw [List.take_succ_cons, lastCleanTs_cons]
      have hstep : postCleanGo daysAfter last (x :: xs) =
          { ts := x.ts, cleaning := x.cleaning.getD 0, moda := x.moda,
            post_clean := postCleanSpec daysAfter
              (if x.cleaning.getD 0 = 1 then some x.ts else last) x } ::
            postCleanGo daysAfter
              (if x.cleaning.getD 0 = 1 then some x.ts else last) xs := rfl
      rw [hstep, List.getElem?_cons_succ]
      exact ih _ j hr

end MoonLight.Transform

/-- Counterexample to C9 as stated: `add_post_clean_flag` does not only
add derived columns — on a frame whose single row has a missing `Cleaning`
cell, the returned row's `Cleaning` cell has been rewritten to 0 by
`fillna(0).astype(int)`, so the non-derived columns of the output differ
from the input. -/
theorem add_post_clean_flag_rewrites_cleaning :
    (MoonLight.Transform.add_post_clean_flag [⟨0, none, 5⟩] 1).map
        MoonLight.Transform.CleanOutRow.stripDerived = [⟨0, some 0, 5⟩]
    ∧ (MoonLight.Transform.add_post_clean_flag [⟨0, none, 5⟩] 1).map
        MoonLight.Transform.CleanOutRow.stripDerived ≠ [⟨0, none, 5⟩] := by
  exact ⟨rfl, by decide⟩

/-- C9 (amended): `add_post_clean_flag` returns the same rows in the same
order; the timestamp and measurement columns are unchanged and only the
derived `post_clean` column is added, except that the `Cleaning` column is
normalised in the output (missing values become 0, integer cast). A row is
flagged post-clean exactly when its days-since-clean — the fractional days
since the most recent prior-or-current row whose normalised cleaning
indicator is 1 — lies in the closed interval `[0, days_after]`, and a row
with no prior cleaning event is flagged `False`. -/
theorem add_post_clean_flag_semantics (df : List MoonLight.Transform.CleanInRow)
    (daysAfter : ℚ) :
    ((MoonLight.Transform.add_post_clean_flag df daysAfter).map
        (fun r => (r.ts, r.moda)) = df.map (fun r => (r.ts, r.moda)))
    ∧ ((MoonLight.Transform.add_post_clean_flag df daysAfter).map
        MoonLight.Transform.CleanOutRow.cleaning =
          df.map (fun r => r.cleaning.getD 0))
    ∧ (∀ (i : ℕ) (r : MoonLight.Transform.CleanInRow), df[i]? = some r →
        ((MoonLight.Transform.add_post_clean_flag df daysAfter)[i]?).map
            MoonLight.Transform.CleanOutRow.post_clean =
          some (MoonLight.Transform.postCleanSpec daysAfter
            (MoonLight.Transform.lastCleanTs (df.take (i + 1)) none) r)) := by
  refine ⟨MoonLight.Transform.postCleanGo_ts_moda _ _ _,
    MoonLight.Transform.postCleanGo_cleaning _ _ _, ?_⟩
  intro i r hr
  exact MoonLight.Transform.postCleanGo_flag daysAfter df none i r hr

/-- Witness for C9's amended theorem: a cleaning event at minute 0, a
reading half a day later (flagged) and the window test applied through the
theorem. -/
theorem add_post_clean_flag_semantics_witness :
    ((MoonLight.Transform.add_post_clean_flag
        [⟨0, some 1, 5⟩, ⟨720, some 0, 6⟩, ⟨4320, some 0, 7⟩] 1)[1]?).map
      MoonLight.Transform.CleanOutRow.post_clean = some true := by
  have h := (add_post_clean_flag_semantics
      [⟨0, some 1, 5⟩, ⟨720, some 0, 6⟩, ⟨4320, some 0, 7⟩] 1).2.2 1
      ⟨720, some 0, 6⟩ (by decide)
  rw [h]
  have hlc : MoonLight.Transform.lastCleanTs
      ([(⟨0, some 1, 5⟩ : MoonLight.Transform.CleanInRow),
        ⟨720, some 0, 6⟩, ⟨4320, some 0, 7⟩].take 2) none = some 0 := by
    decide
  rw [hlc]
  simp only [MoonLight.Transform.postCleanSpec, Option.some.injEq]
  rw [decide_eq_true_eq]
  norm_num

/-! ### Caller-visible frame effects (src/scripts/qa.py, stats.py,
transform.py): which operations mutate the frame the caller passed in -/

namespace MoonLight.Frames

/-- A cell of the untyped DataFrame model: a rational, a NaN, a boolean, a
datetime (minutes), a calendar date (day number), or a standardized score
kept in the exact symbolic form `score dev var`, denoting the real number
`dev/√var` that `compute_zscore` produces (irrational in general, so it is
not collapsed to a rational). -/
inductive Cell
  | num (q : ℚ)
  | nan
  | bool (b : Bool)
  | time (t : ℤ)
  | date (d : ℤ)
  | score (dev : ℚ) (var : ℚ)
deriving DecidableEq, Repr

/-- A pandas DataFrame: an ordered association list of named columns. -/
abbrev Frame := List (String × List Cell)

/-- `df[name]`; `none` models the `KeyError` of an absent column. -/
def getCol (df : Frame) (name : String) : Option (List Cell) :=
  (df.find? (fun p => p.1 == name)).map Prod.snd

/-- The item assignment `df[name] = cells`: overwrites the column in place
when it exists, else appends a new last column — either way mutating the
caller's frame. -/
def setCol (df : Frame) (name : String) (cells : List Cell) : Frame :=
  if df.any (fun p => p.1 == name) then
    df.map (fun p => if p.1 == name then (name, cells) else p)
  else df ++ [(name, cells)]

/-- Numeric view of a cell (`none` = NaN for anything non-numeric). -/
def Cell.toNum : Cell → Option ℚ
  | .num q => some q
  | _ => none

/-- The z-score cell of one entry of the selected column (`compute_zscore`):
NaN cells, a NaN mean, or zero variance give NaN; otherwise the exact value
`(x - mean)/std` is kept as `score (x - mean) var`. -/
def zCell (s : List (Option ℚ)) (x : Option ℚ) : Cell :=
  match x, MoonLight.Stats.nanMean s, MoonLight.Stats.popVar s with
  | some q, some m, some v => if v = 0 then .nan else .score (q - m) v
  | _, _, _ => .nan

/-- Caller-visible effect of `flag_outliers_z(df, col, threshold)`
(src/scripts/stats.py, lines 9-14): the item assignments
`df[f'{col}_z'] = z` and `df[f'{col}_outlier'] = z.abs() > threshold`
write into the frame the caller passed, and that same mutated frame is
returned — there is no copy. -/
def flag_outliers_z (df : Frame) (col : String) (t : ℚ) : Frame :=
  setCol
    (setCol df (col ++ "_z")
      ((((getCol df col).getD []).map Cell.toNum).map
        (zCell (((getCol df col).getD []).map Cell.toNum))))
    (col ++ "_outlier")
    ((((getCol df col).getD []).map Cell.toNum).map
      (fun x => Cell.bool (MoonLight.Stats.zFlag
        (((getCol df col).getD []).map Cell.toNum) t x)))

/-- `Timestamp.dt.date` of one cell. -/
def Cell.dtDate : Cell → Cell
  | .time t => .date (Int.fdiv t 1440)
  | _ => .nan

/-- Caller-visible effect of `add_daily_aggregates(df)`
(src/scripts/transform.py, lines 12-18): before grouping, the assignment
`df['date'] = df['Timestamp'].dt.date` writes a `date` column into the
caller's frame; the grouped means are built as a separate new frame. -/
def add_daily_aggregates_eff (df : Frame) : Frame :=
  setCol df "date" (((getCol df "Timestamp").getD []).map Cell.dtDate)

/-- The report of `basic_quality_report` (src/scripts/qa.py, lines 5-17):
a value computed by reading the frame — row count, column count,
per-column missing counts. -/
structure QualityReport where
  n_rows : ℕ
  n_cols : ℕ
  missing_per_col : List (String × ℕ)
deriving DecidableEq, Repr

/-- `basic_quality_report` only reads `df`; being a plain function of the
frame, it leaves the caller's frame untouched. -/
def basic_quality_report (df : Frame) : QualityReport :=
  { n_rows := (df.head?.map (fun p => p.2.length)).getD 0,
    n_cols := df.length,
    missing_per_col :=
      df.map (fun p => (p.1, (p.2.filter (fun c => c == Cell.nan)).length)) }

theorem setCol_of_fresh (df : Frame) (name : String) (cells : List Cell)
    (h : df.any (fun p => p.1 == name) = false) :
    setCol df name cells = df ++ [(name, cells)] := by
  unfold setCol
  rw [if_neg (by simp [h])]

theorem zCell_some (s : List (Option ℚ)) (q m v : ℚ)
    (hm : MoonLight.Stats.nanMean s = some m)
    (hv : MoonLight.Stats.popVar s = some v) :
    zCell s (some q) = if v = 0 then Cell.nan else Cell.score (q - m) v := by
  unfold zCell
  rw [hm, hv]

theorem getCol_append_fresh (df : Frame) (rest : Frame) (c : String)
    (h : ∀ p ∈ rest, ¬ p.1 = c) :
    getCol (df ++ rest) c = getCol df c := by
  unfold getCol
  rw [List.find?_append]
  cases hf : df.find? (fun p => p.1 == c) with
  | some p => rfl
  | none =>
    have : rest.find? (fun p => p.1 == c) = none := by
      rw [List.find?_eq_none]
      intro p hp
      simp [h p hp]
    simp [this]

end MoonLight.Frames

/-- Counterexample to C4 as stated: the Outlier Detector does not leave
the caller's dataset unchanged — `flag_outliers_z` writes the `GHI_z` and
`GHI_outlier` columns into the frame it was handed (and returns that same
frame) — and the Transformer's `add_daily_aggregates` writes a `date`
column into the caller's frame. -/
theorem outlier_detector_and_aggregates_mutate_caller :
    MoonLight.Frames.flag_outliers_z
        [("GHI", [MoonLight.Frames.Cell.num 1, MoonLight.Frames.Cell.num 2])]
        "GHI" 3 ≠
      [("GHI", [MoonLight.Frames.Cell.num 1, MoonLight.Frames.Cell.num 2])]
    ∧ MoonLight.Frames.add_daily_aggregates_eff
        [("Timestamp", [MoonLight.Frames.Cell.time 0]),
         ("GHI", [MoonLight.Frames.Cell.num 1])] ≠
      [("Timestamp", [MoonLight.Frames.Cell.time 0]),
       ("GHI", [MoonLight.Frames.Cell.num 1])] := by
  constructor
  · intro hEq
    have hlen := congrArg List.length hEq
    rw [MoonLight.Frames.flag_outliers_z,
      MoonLight.Frames.setCol_of_fresh _ _ _ (by decide),
      MoonLight.Frames.setCol_of_fresh _ _ _ (by decide)] at hlen
    simp at hlen
  · decide

/-- C4 (amended): `basic_quality_report` only reads its frame, and
`add_post_clean_flag` works on a copy, so those leave the caller's dataset
unchanged; but `flag_outliers_z` appends its two derived columns
(`{col}_z`, `{col}_outlier`) to the caller's frame and returns that same
frame, and `add_daily_aggregates` appends the derived `date` column to the
caller's frame; in both cases every pre-existing column of the caller's
frame is preserved. -/
theorem dataset_frame_effects (df : MoonLight.Frames.Frame) (col : String)
    (t : ℚ) (cellsT : List MoonLight.Frames.Cell)
    (hz : df.any (fun p => p.1 == col ++ "_z") = false)
    (ho : df.any (fun p => p.1 == col ++ "_outlier") = false)
    (hzo : ¬ (col ++ "_z" : String) = col ++ "_outlier")
    (hts : MoonLight.Frames.getCol df "Timestamp" = some cellsT)
    (hd : df.any (fun p => p.1 == "date") = false) :
    (MoonLight.Frames.flag_outliers_z df col t =
      df ++
        [(col ++ "_z",
          (((MoonLight.Frames.getCol df col).getD []).map
              MoonLight.Frames.Cell.toNum).map
            (MoonLight.Frames.zCell
              (((MoonLight.Frames.getCol df col).getD []).map
                MoonLight.Frames.Cell.toNum))),
         (col ++ "_outlier",
          (((MoonLight.Frames.getCol df col).getD []).map
              MoonLight.Frames.Cell.toNum).map
            (fun x => MoonLight.Frames.Cell.bool (MoonLight.Stats.zFlag
              (((MoonLight.Frames.getCol df col).getD []).map
                MoonLight.Frames.Cell.toNum) t x)))])
    ∧ (∀ c : String, ¬ c = col ++ "_z" → ¬ c = col ++ "_outlier" →
        MoonLight.Frames.getCol (MoonLight.Frames.flag_outliers_z df col t) c =
          MoonLight.Frames.getCol df c)
    ∧ (MoonLight.Frames.add_daily_aggregates_eff df =
        df ++ [("date", cellsT.map MoonLight.Frames.Cell.dtDate)])
    ∧ (∀ c : String, ¬ c = "date" →
        MoonLight.Frames.getCol (MoonLight.Frames.add_daily_aggregates_eff df) c =
          MoonLight.Frames.getCol df c) := by
  have hflag : MoonLight.Frames.flag_outliers_z df col t =
      df ++
        [(col ++ "_z",
          (((MoonLight.Frames.getCol df col).getD []).map
              MoonLight.Frames.Cell.toNum).map
            (MoonLight.Frames.zCell
              (((MoonLight.Frames.getCol df col).getD []).map
                MoonLight.Frames.Cell.toNum))),
         (col ++ "_outlier",
          (((MoonLight.Frames.getCol df col).getD []).map
              MoonLight.Frames.Cell.toNum).map
            (fun x => MoonLight.Frames.Cell.bool (MoonLight.Stats.zFlag
              (((MoonLight.Frames.getCol df col).getD []).map
                MoonLight.Frames.Cell.toNum) t x)))] := by
    unfold MoonLight.Frames.flag_outliers_z
    rw [MoonLight.Frames.setCol_of_fresh _ _ _ hz,
      MoonLight.Frames.setCol_of_fresh _ _ _ (by
        rw [List.any_append]
        simp only [ho, Bool.false_or, List.any_cons, List.any_nil,
          Bool.or_false]
        simp [hzo]),
      List.append_assoc]
    rfl
  have hagg : MoonLight.Frames.add_daily_aggregates_eff df =
      df ++ [("date", cellsT.map MoonLight.Frames.Cell.dtDate)] := by
    unfold MoonLight.Frames.add_daily_aggregates_eff
    rw [MoonLight.Frames.setCol_of_fresh _ _ _ hd, hts]
    rfl
  refine ⟨hflag, ?_, hagg, ?_⟩
  · intro c hc1 hc2
    rw [hflag]
    apply MoonLight.Frames.getCol_append_fresh
    intro p hp
    rcases List.mem_cons.mp hp with h | h
    · rw [h]; simpa using fun hcontra => hc1 hcontra.symm
    · rcases List.mem_cons.mp h with h' | h'
      · rw [h']; simpa using fun hcontra => hc2 hcontra.symm
      · exact absurd h' (by simp)
  · intro c hc
    rw [hagg]
    apply MoonLight.Frames.getCol_append_fresh
    intro p hp
    rcases List.mem_cons.mp hp with h | h
    · rw [h]; simpa using fun hcontra => hc hcontra.symm
    · exact absurd h (by simp)

/-- Witness for C4's amended theorem: on a concrete two-column frame, the
caller's frame after `flag_outliers_z` has gained the evaluated `GHI_z`
and `GHI_outlier` columns, and after the `add_daily_aggregates` assignment
it has gained the `date` column; the original columns are intact. -/
theorem dataset_frame_effects_witness :
    MoonLight.Frames.flag_outliers_z
        [("Timestamp", [MoonLight.Frames.Cell.time 0, MoonLight.Frames.Cell.time 720]),
         ("GHI", [MoonLight.Frames.Cell.num 1, MoonLight.Frames.Cell.num 2])]
        "GHI" 3 =
      [("Timestamp", [MoonLight.Frames.Cell.time 0, MoonLight.Frames.Cell.time 720]),
       ("GHI", [MoonLight.Frames.Cell.num 1, MoonLight.Frames.Cell.num 2]),
       ("GHI_z", [MoonLight.Frames.Cell.score (-(1/2)) (1/4),
                  MoonLight.Frames.Cell.score (1/2) (1/4)]),
       ("GHI_outlier", [MoonLight.Frames.Cell.bool false,
                        MoonLight.Frames.Cell.bool false])]
    ∧ MoonLight.Frames.add_daily_aggregates_eff
        [("Timestamp", [MoonLight.Frames.Cell.time 0, MoonLight.Frames.Cell.time 720]),
         ("GHI", [MoonLight.Frames.Cell.num 1, MoonLight.Frames.Cell.num 2])] =
      [("Timestamp", [MoonLight.Frames.Cell.time 0, MoonLight.Frames.Cell.time 720]),
       ("GHI", [MoonLight.Frames.Cell.num 1, MoonLight.Frames.Cell.num 2]),
       ("date", [MoonLight.Frames.Cell.date 0, MoonLight.Frames.Cell.date 0])] := by
  have h := dataset_frame_effects
    [("Timestamp", [MoonLight.Frames.Cell.time 0, MoonLight.Frames.Cell.time 720]),
     ("GHI", [MoonLight.Frames.Cell.num 1, MoonLight.Frames.Cell.num 2])]
    "GHI" 3 [MoonLight.Frames.Cell.time 0, MoonLight.Frames.Cell.time 720]
    (by decide) (by decide) (by decide) (by decide) (by decide)
  have hm : MoonLight.Stats.nanMean [some 1, some 2] = some (3/2) := by
    unfold MoonLight.Stats.nanMean
    norm_num [MoonLight.seriesMean, List.filterMap_cons, List.filterMap_nil]
  have hv : MoonLight.Stats.popVar [some 1, some 2] = some (1/4) := by
    unfold MoonLight.Stats.popVar
    rw [hm]
    show some _ = some (1/4)
    norm_num [List.filterMap_cons, List.filterMap_nil]
  have hget : ((MoonLight.Frames.getCol
      [("Timestamp", [MoonLight.Frames.Cell.time 0, MoonLight.Frames.Cell.time 720]),
       ("GHI", [MoonLight.Frames.Cell.num 1, MoonLight.Frames.Cell.num 2])]
      "GHI").getD []).map MoonLight.Frames.Cell.toNum = [some 1, some 2] := by
    decide
  constructor
  · rw [h.1]
    simp only [hget, List.map_cons, List.map_nil]
    rw [MoonLight.Frames.zCell_some _ 1 (3/2) (1/4) hm hv,
      MoonLight.Frames.zCell_some _ 2 (3/2) (1/4) hm hv,
      MoonLight.Stats.zFlag_some _ 3 1 (3/2) (1/4) hm hv,
      MoonLight.Stats.zFlag_some _ 3 2 (3/2) (1/4) hm hv,
      if_neg (by norm_num : ¬ (1/4 : ℚ) = 0),
      if_neg (by norm_num : ¬ (1/4 : ℚ) = 0),
      decide_eq_false (by norm_num : ¬ (3 : ℚ) < 0),
      decide_eq_false (by norm_num : ¬ ((1 : ℚ) - 3/2) ^ 2 > 3 ^ 2 * (1/4)),
      decide_eq_false (by norm_num : ¬ ((2 : ℚ) - 3/2) ^ 2 > 3 ^ 2 * (1/4))]
    norm_num
    exact ⟨by decide, by decide⟩
  · rw [h.2.2.1]
    decide

/-- C3: on a frame whose readings all carry parsed timestamps,
`add_daily_aggregates` emits one row per distinct calendar date (dates
strictly ascending, and a date appears in the output exactly when some
reading has it), each output cell is the arithmetic mean of that column
over the readings of that date, and in particular a nonempty single-day
frame of N readings aggregates to exactly one row of whole-frame means. -/
theorem add_daily_aggregates_one_row_per_date
    (df : List MoonLight.Transform.Reading) :
    List.Sorted (· < ·)
      ((MoonLight.Transform.add_daily_aggregates df).map MoonLight.Transform.AggRow.Date)
    ∧ (∀ d : ℤ,
        d ∈ (MoonLight.Transform.add_daily_aggregates df).map MoonLight.Transform.AggRow.Date ↔
          d ∈ df.map MoonLight.Transform.Reading.date)
    ∧ (∀ row ∈ MoonLight.Transform.add_daily_aggregates df,
        ∀ c : MoonLight.Transform.Col,
          MoonLight.seriesMean
              ((df.filter (fun r => r.date == row.Date)).map (fun r => r.val c)) =
            some (row.val c))
    ∧ (∀ d : ℤ, (∀ r ∈ df, r.date = d) → df ≠ [] →
        MoonLight.Transform.add_daily_aggregates df =
          [{ Date := d,
             val := fun c => ((df.map (fun r => r.val c)).sum / (df.length : ℚ)) }]) := by
  have hmapDate : (MoonLight.Transform.add_daily_aggregates df).map
      MoonLight.Transform.AggRow.Date = MoonLight.Transform.groupDates df := by
    unfold MoonLight.Transform.add_daily_aggregates
    rw [List.map_map]
    exact List.map_id _
  refine ⟨?_, ?_, ?_, ?_⟩
  · rw [hmapDate]; exact MoonLight.Transform.groupDates_sorted df
  · intro d; rw [hmapDate]; exact MoonLight.Transform.mem_groupDates df d
  · intro row hrow c
    unfold MoonLight.Transform.add_daily_aggregates at hrow
    rcases List.mem_map.mp hrow with ⟨d, hd, hrow⟩
    subst hrow
    have hdmem : d ∈ df.map MoonLight.Transform.Reading.date :=
      (MoonLight.Transform.mem_groupDates df d).mp hd
    rcases List.mem_map.mp hdmem with ⟨r, hr, hrd⟩
    have hne : df.filter (fun r => r.date == d) ≠ [] := by
      intro hnil
      have : r ∈ df.filter (fun r => r.date == d) :=
        List.mem_filter.mpr ⟨hr, by simp [hrd]⟩
      rw [hnil] at this; exact absurd this (by simp)
    have hlen : ((df.filter (fun r => r.date == d)).map (fun r => r.val c)).length ≠ 0 := by
      simpa [List.length_eq_zero] using hne
    rw [MoonLight.seriesMean, if_neg hlen, List.length_map]
  · intro d hall hne
    have hmem : ∀ x, x ∈ df.map MoonLight.Transform.Reading.date ↔ x = d := by
      intro x
      constructor
      · intro hx
        rcases List.mem_map.mp hx with ⟨r, hr, hrx⟩
        rw [← hrx]; exact hall r hr
      · intro hx
        subst hx
        rcases List.exists_mem_of_ne_nil df hne with ⟨r, hr⟩
        exact List.mem_map.mpr ⟨r, hr, hall r hr⟩
    have hgroup : MoonLight.Transform.groupDates df = [d] :=
      MoonLight.Transform.nodup_eq_singleton _ d (List.nodup_dedup _)
        (fun x => (MoonLight.Transform.mem_groupDates df x).trans (hmem x))
    have hfilter : df.filter (fun r => r.date == d) = df := by
      apply List.filter_eq_self.mpr
      intro r hr; simp [hall r hr]
    unfold MoonLight.Transform.add_daily_aggregates
    rw [hgroup]
    simp only [List.map_cons, List.map_nil]
    rw [hfilter]

/-- Witness for C3: the theorem applied to a concrete two-reading,
single-day frame; the single-day clause produces the one row of means. -/
theorem add_daily_aggregates_one_row_per_date_witness :
    MoonLight.Transform.add_daily_aggregates
        [⟨737000, fun _ => 10⟩, ⟨737000, fun _ => 20⟩] =
      [{ Date := 737000,
         val := fun c =>
           (((([⟨737000, fun _ => 10⟩, ⟨737000, fun _ => 20⟩] :
               List MoonLight.Transform.Reading)).map (fun r => r.val c)).sum / 2) }] := by
  have h := (add_daily_aggregates_one_row_per_date
      [⟨737000, fun _ => 10⟩, ⟨737000, fun _ => 20⟩]).2.2.2 737000
      (by
        intro r hr
        simp only [List.mem_cons, List.not_mem_nil, or_false] at hr
        rcases hr with h | h <;> (subst h; rfl))
      (by simp)
  simpa using h

/-- C10: on an empty daily-aggregate table `country_score` returns NaN for
every component mean and for the score, and it is a total function of the
table — no exception is raised on the degenerate input. -/
theorem country_score_empty_all_nan :
    MoonLight.Scoring.country_score [] =
      { avg_GHI := none, avg_DNI := none, avg_DHI := none,
        avg_Tamb := none, score := none } := rfl

/-- C1: on any nonempty daily-aggregate table, `country_score` with the
default weights returns the four column means together with the score
`0.40*mean_GHI + 0.35*mean_DNI - 0.15*mean_DHI - 0.10*(mean_Tamb/40)*1000`. -/
theorem country_score_default_means_and_formula
    (df : List MoonLight.Scoring.DailyRow) (hne : df ≠ []) :
    MoonLight.Scoring.country_score df =
      { avg_GHI := some ((df.map MoonLight.Scoring.DailyRow.GHI).sum / df.length),
        avg_DNI := some ((df.map MoonLight.Scoring.DailyRow.DNI).sum / df.length),
        avg_DHI := some ((df.map MoonLight.Scoring.DailyRow.DHI).sum / df.length),
        avg_Tamb := some ((df.map MoonLight.Scoring.DailyRow.Tamb).sum / df.length),
        score := some (0.40 * ((df.map MoonLight.Scoring.DailyRow.GHI).sum / df.length)
                 + 0.35 * ((df.map MoonLight.Scoring.DailyRow.DNI).sum / df.length)
                 - 0.15 * ((df.map MoonLight.Scoring.DailyRow.DHI).sum / df.length)
                 - 0.10 * (((df.map MoonLight.Scoring.DailyRow.Tamb).sum / df.length) / 40) * 1000) } := by
  have hG : df.map MoonLight.Scoring.DailyRow.GHI ≠ [] := by
    simpa using hne
  have hD : df.map MoonLight.Scoring.DailyRow.DNI ≠ [] := by
    simpa using hne
  have hH : df.map MoonLight.Scoring.DailyRow.DHI ≠ [] := by
    simpa using hne
  have hT : df.map MoonLight.Scoring.DailyRow.Tamb ≠ [] := by
    simpa using hne
  unfold MoonLight.Scoring.country_score
  rw [MoonLight.seriesMean_of_ne_nil _ hG, MoonLight.seriesMean_of_ne_nil _ hD,
      MoonLight.seriesMean_of_ne_nil _ hH, MoonLight.seriesMean_of_ne_nil _ hT]
  simp [MoonLight.Scoring.defaultWeights]
  norm_num

/-- Witness for C1: the theorem applied to a concrete two-row table. -/
theorem country_score_default_means_and_formula_witness :
    MoonLight.Scoring.country_score
        [⟨100, 80, 20, 20⟩, ⟨300, 120, 40, 30⟩] =
      { avg_GHI := some 200, avg_DNI := some 100, avg_DHI := some 30,
        avg_Tamb := some 25,
        score := some (0.40 * 200 + 0.35 * 100 - 0.15 * 30
                       - 0.10 * (25 / 40) * 1000) } := by
  rw [country_score_default_means_and_formula _ (by simp)]
  norm_num
